import Mathlib

/-!
Shallow embedding of the kotoba-server GraphQL gateway (Rust sources under
kotoba-server/src: app.rs, graph.rs, server.rs, main.rs) together with a
spec-modelled Dispatcher (the graphql module referenced by server.rs).
Definitions are translated from the source; components whose source file is
absent are modelled from the specification and say so in their doc comment.
-/

namespace Kotoba

/-- App from app.rs: a field-less shared application state struct
(`pub struct App \x7b\x7d`). -/
structure App where
deriving DecidableEq, Repr

/-- The initializer body of the lazy_static APP cell in App::get:
`let app = App \x7b\x7d; app`. -/
def appInit : App := {}

/-- Semantics of a lazy_static cell access: the cell state is `none` before
initialization and `some v` after; the first access runs the initializer and
stores the result, every later access returns the stored value unchanged. -/
def lazyGet {α : Type} (init : α) : Option α → α × Option α
  | none => (init, some init)
  | some a => (a, some a)

/-- App::get from app.rs, acting on the lazy_static cell state: initializes
the static APP cell with `appInit` on first access and returns the stored
instance on every access. -/
def App.get (s : Option App) : App × Option App := lazyGet appInit s

/-- Context from graph.rs: the per-request execution context carrying the
static App reference (`pub app: &'static App`). -/
structure Context where
  app : App
deriving DecidableEq, Repr

/-- Query from graph.rs: the root Query type (a unit struct). -/
structure Query where
deriving DecidableEq, Repr

/-- Mutation from graph.rs: the root Mutation type (a unit struct). -/
structure Mutation where
deriving DecidableEq, Repr

/-- EmptySubscription marker (juniper::EmptySubscription), the empty
subscription capability used by the schema in graph.rs. -/
structure EmptySubscription where
deriving DecidableEq, Repr

/-- Query::app from graph.rs: `fn app() -> &'static str \x7b "Kotoba Server" \x7d`.
It takes no arguments and reads no state. -/
def Query.app : String := "Kotoba Server"

/-- Mutation::no_op from graph.rs: `fn no_op() -> i32 \x7b 42 \x7d`.
It takes no arguments, reads no state and changes no state. -/
def Mutation.no_op : Int := 42

/-- The per-field invocation environment the GraphQL engine carries when it
resolves a field: the request's execution context, the JSON-encoded variables
and the optional operation name. The stub resolvers in graph.rs take no
parameters, so their engine-facing wrappers ignore this environment. -/
structure RequestScope where
  ctx : Context
  vars : Option String
  operationName : Option String
deriving DecidableEq, Repr

/-- Engine-facing wrapper for Query::app: the graphql_object resolver for the
field `app`. The Rust function takes no arguments, so the wrapper discards the
request scope. -/
def resolveApp (_s : RequestScope) : String := Query.app

/-- Engine-facing wrapper for Mutation::no_op: the graphql_object resolver for
the field `noOp` (juniper renames no_op to camelCase). The Rust function takes
no arguments, so the wrapper discards the request scope. -/
def resolveNoOp (_s : RequestScope) : Int := Mutation.no_op

/-- An HTTP response as far as the handlers under test produce one: a status
code and a body string. -/
structure HttpResponse where
  status : Nat
  body : String
deriving DecidableEq, Repr

/-- hello from server.rs: the GET `/` identity handler,
`web::HttpResponse::Ok().body("Kotoba server")`. -/
def hello : HttpResponse := { status := 200, body := "Kotoba server" }

/-- Schema from graph.rs: `juniper::RootNode` over the Query root, the
Mutation root and the empty subscription capability. -/
structure Schema where
  queryRoot : Query
  mutationRoot : Mutation
  subscriptionRoot : EmptySubscription
deriving DecidableEq, Repr

/-- Schema::new (juniper::RootNode::new as invoked in server.rs): packs the
three roots into the immutable schema value. -/
def Schema.new (q : Query) (m : Mutation) (s : EmptySubscription) : Schema :=
  { queryRoot := q, mutationRoot := m, subscriptionRoot := s }

/-- The per-worker application state built by the factory closure that
launch (server.rs) hands to HttpServer::new: the Schema data and the captured
static App reference registered as app data. -/
structure WorkerApp where
  schema : Schema
  appData : App
deriving DecidableEq, Repr

/-- The application factory closure from launch in server.rs: each run calls
Schema.new(Query, Mutation, EmptySubscription::new()) and registers the
captured `app` reference. -/
def appFactory (app : App) : WorkerApp :=
  { schema := Schema.new {} {} {}, appData := app }

/-- launch (server.rs) under actix-web semantics: HttpServer::new receives the
application factory and invokes it once per worker thread, so a launch with
`n` workers runs `appFactory` `n` times. -/
def launchWorkers (app : App) (n : Nat) : List WorkerApp :=
  (List.range n).map (fun _ => appFactory app)

/-- Number of Schema.new invocations a launch with `n` workers performs: one
per factory run (Schema.new appears exactly once in the factory body). -/
def schemaNewCalls (app : App) (n : Nat) : Nat :=
  (launchWorkers app n).length

/-- Character-list matching helper: does the pattern occur at the head of the
text? -/
def matchesAt : List Char → List Char → Bool
  | [], _ => true
  | _ :: _, [] => false
  | a :: as, b :: bs => a == b && matchesAt as bs

/-- Substring test used to state claims about response bodies. -/
def strContains (s pat : String) : Bool :=
  (List.range (s.length + 1)).any (fun i => matchesAt pat.data (s.data.drop i))

/-- The property the specification asserts of the identity endpoint body:
that it is a JSON payload whose text contains the member `"ok": true`
(with or without a space after the colon). -/
def bodyMentionsOkTrue (r : HttpResponse) : Bool :=
  strContains r.body "\"ok\": true" || strContains r.body "\"ok\":true"

/-- JSON-compatible values as this schema's two scalar resolvers produce
them: a string or an i32 number. -/
inductive JVal
  | str (s : String)
  | num (n : Int)
deriving DecidableEq, Repr

/-- Kind of a GraphQL operation: query or mutation (the subscription
capability is empty). -/
inductive OpKind
  | query
  | mutation
deriving DecidableEq, Repr

/-- A parsed GraphQL operation over this schema: its kind and the flat list
of requested scalar field names. -/
structure Operation where
  kind : OpKind
  fields : List String
deriving DecidableEq, Repr

/-- The opening-brace character of a GraphQL document. -/
def lbrace : Char := Char.ofNat 123

/-- The closing-brace character of a GraphQL document. -/
def rbrace : Char := Char.ofNat 125

/-- Separator characters of a GraphQL document at the granularity this
schema needs: whitespace, commas and braces. -/
def isSepChar (c : Char) : Bool :=
  c == ' ' || c == '\t' || c == '\n' || c == '\r' || c == ',' || c == lbrace || c == rbrace

/-- Splits a character list into maximal runs of non-separator characters,
accumulating the current run in reverse in `acc`. -/
def tokensAux : List Char → List Char → List String
  | [], acc => if acc.isEmpty then [] else [String.mk acc.reverse]
  | c :: cs, acc =>
    if isSepChar c then
      if acc.isEmpty then tokensAux cs [] else String.mk acc.reverse :: tokensAux cs []
    else
      tokensAux cs (c :: acc)

/-- Tokenizes a GraphQL document into its words. -/
def tokenize (doc : String) : List String := tokensAux doc.data []

/-- Modelled from the spec: the GraphQL document parser of the schema engine
invoked by the Dispatcher (the graphql module is absent from src/). The spec
only exercises anonymous documents over flat scalar fields: an optional
leading `query`/`mutation` keyword followed by a braced flat selection set,
as in the spec examples, with an empty document failing to parse. -/
def parseDocument (doc : String) : Option Operation :=
  match tokenize doc with
  | [] => none
  | "mutation" :: rest =>
    if rest.isEmpty then none else some { kind := OpKind.mutation, fields := rest }
  | "query" :: rest =>
    if rest.isEmpty then none else some { kind := OpKind.query, fields := rest }
  | fields => some { kind := OpKind.query, fields := fields }

/-- A GraphQL response per the spec's data model: `data` on success (here an
ordered object of resolved fields), `errors` populated on failure. -/
structure GqlResponse where
  data : Option (List (String × JVal))
  errors : List String
deriving DecidableEq, Repr

/-- Field lookup on the Query root of graph.rs: the only field is `app`,
resolved by the engine-facing wrapper of Query::app. -/
def resolveQueryField (s : RequestScope) : String → Option JVal
  | "app" => some (JVal.str (resolveApp s))
  | _ => none

/-- Field lookup on the Mutation root of graph.rs: the only field is `noOp`
(juniper camelCases no_op), resolved by the wrapper of Mutation::no_op. -/
def resolveMutationField (s : RequestScope) : String → Option JVal
  | "noOp" => some (JVal.num (resolveNoOp s))
  | _ => none

/-- Root field resolution: dispatch on the operation kind to the Query or
Mutation root of graph.rs. -/
def fieldResolver (s : RequestScope) : OpKind → String → Option JVal
  | OpKind.query => resolveQueryField s
  | OpKind.mutation => resolveMutationField s

/-- Modelled from the spec: execution of a parsed operation by the schema
engine (external to src/). A selection naming only defined root fields
resolves every field into the `data` object with no errors; a selection
naming any undefined field is a validation failure — `data` is null and the
`errors` array reports each unknown field. -/
def executeOperation (s : RequestScope) (op : Operation) : GqlResponse :=
  let resolve := fieldResolver s op.kind
  let bad := op.fields.filter (fun f => (resolve f).isNone)
  if bad = [] then
    { data := some (op.fields.filterMap (fun f => (resolve f).map (fun v => (f, v)))),
      errors := [] }
  else
    { data := none, errors := bad.map (fun f => "Unknown field " ++ f) }

/-- Modelled from the spec: end-to-end execution of a document string — a
document that fails to parse is a GraphQL-level error (null `data`,
non-empty `errors`), otherwise the parsed operation is executed. -/
def executeDocument (s : RequestScope) (doc : String) : GqlResponse :=
  match parseDocument doc with
  | none => { data := none, errors := ["invalid GraphQL document"] }
  | some op => executeOperation s op

/-- Wraps a string in JSON quotes. -/
def jstr (s : String) : String := "\"" ++ s ++ "\""

/-- Serializes a resolved field value to JSON. -/
def serializeJVal : JVal → String
  | JVal.str s => jstr s
  | JVal.num n => toString n

/-- Serializes the `data` object members to JSON. -/
def serializeFields (fs : List (String × JVal)) : String :=
  String.intercalate "," (fs.map (fun p => jstr p.1 ++ ":" ++ serializeJVal p.2))

/-- Serializes the `errors` array elements to JSON. -/
def serializeErrors (es : List String) : String :=
  String.intercalate "," (es.map (fun e => "\x7b\"message\":" ++ jstr e ++ "\x7d"))

/-- Modelled from the spec: serialization of a GraphQL response to the wire
shape given in the spec, with the JSON object braces written as the escaped
characters \x7b and \x7d. -/
def serializeResponse (r : GqlResponse) : String :=
  match r.data with
  | some fs =>
    if r.errors = [] then
      "\x7b\"data\":\x7b" ++ serializeFields fs ++ "\x7d\x7d"
    else
      "\x7b\"data\":\x7b" ++ serializeFields fs ++ "\x7d,\"errors\":[" ++
        serializeErrors r.errors ++ "]\x7d"
  | none => "\x7b\"data\":null,\"errors\":[" ++ serializeErrors r.errors ++ "]\x7d"

/-- Modelled from the spec: the input of the Dispatcher's GET entry after the
transport layer — either the query string URL-decoded into key-value
parameters, or an undecodable query string (invalid UTF-8/URL encoding). -/
inductive GetInput
  | params (kvs : List (String × String))
  | undecodable
deriving DecidableEq, Repr

/-- Modelled from the spec: the input of the Dispatcher's POST entry after
the transport layer — either a body parsed as the JSON object with fields
`query`, `operationName`, `variables`, or malformed JSON, or a body
exceeding the configured maximum size. -/
inductive PostInput
  | json (query : String) (operationName : Option String) (vars : Option String)
  | malformed
  | oversized
deriving DecidableEq, Repr

/-- The transport-error response: HTTP 400, produced before any GraphQL
execution. -/
def badRequest : HttpResponse := { status := 400, body := "bad request" }

/-- The request scope the GET entry builds: a fresh execution context over
the process AppState, plus the optional `variables` and `operationName`
parameters. -/
def scopeOfGet (app : App) (kvs : List (String × String)) : RequestScope :=
  { ctx := { app := app },
    vars := List.lookup "variables" kvs,
    operationName := List.lookup "operationName" kvs }

/-- Modelled from the spec: the Dispatcher's GET entry (graphql module absent
from src/) — an undecodable query string or a missing `query` parameter is a
bad request answered with HTTP 400 before execution; otherwise the document
is executed under a fresh ExecutionContext and the serialized GraphQL
response is returned with HTTP 200. The executor is passed as a parameter so
that non-invocation on the error paths is expressible. -/
def dispatchGet (exec : RequestScope → String → GqlResponse) (app : App) :
    GetInput → HttpResponse
  | GetInput.undecodable => badRequest
  | GetInput.params kvs =>
    match List.lookup "query" kvs with
    | none => badRequest
    | some q =>
      { status := 200, body := serializeResponse (exec (scopeOfGet app kvs) q) }

/-- Modelled from the spec: the Dispatcher's POST entry — malformed JSON or
an oversized body is a bad request answered with HTTP 400 before execution;
otherwise the document from the JSON body is executed under a fresh
ExecutionContext and the serialized GraphQL response is returned with
HTTP 200. -/
def dispatchPost (exec : RequestScope → String → GqlResponse) (app : App) :
    PostInput → HttpResponse
  | PostInput.malformed => badRequest
  | PostInput.oversized => badRequest
  | PostInput.json q opName vs =>
    { status := 200,
      body := serializeResponse
        (exec { ctx := { app := app }, vars := vs, operationName := opName } q) }

/-- The `query` parameter a GET input carries, if any. -/
def getQueryParam : GetInput → Option String
  | GetInput.undecodable => none
  | GetInput.params kvs => List.lookup "query" kvs

/-- Whether a POST input is a transport error (malformed JSON or oversized
body) rather than a decoded request. -/
def postTransportError : PostInput → Bool
  | PostInput.json _ _ _ => false
  | PostInput.malformed => true
  | PostInput.oversized => true

/-- A canonical request scope, used to state scope-independent facts about
execution. -/
def defaultScope : RequestScope :=
  { ctx := { app := {} }, vars := none, operationName := none }

/-- Whether a field name is defined on the given root of the graph.rs
schema. -/
def fieldDefined (k : OpKind) (f : String) : Bool :=
  (fieldResolver defaultScope k f).isSome

end Kotoba

namespace Kotoba

/-- C3: every call to App::get returns the same AppState instance. For any
two cell states, the returned instances are equal; after any call the cell
holds exactly the returned instance and a further call leaves both the result
and the cell unchanged; the first call (on the uninitialized cell) is the one
that runs the initializer and stores `appInit`. -/
theorem App.get_singleton (s t : Option App) :
    (App.get s).1 = (App.get t).1 ∧
    (App.get s).2 = some (App.get s).1 ∧
    App.get ((App.get s).2) = App.get s ∧
    App.get none = (appInit, some appInit) := by
  cases s <;> cases t <;> simp [App.get, lazyGet, appInit]

/-- C9: AppState construction is infallible. App is a field-less struct, so
all App values coincide with the initializer's result; App::get is a total
function that returns the instance from every cell state, and the
initializing first access succeeds outright — there is no failure branch. -/
theorem App.init_infallible :
    (∀ a b : App, a = b) ∧
    (∀ s : Option App, (App.get s).1 = appInit) ∧
    (∀ s : Option App, (App.get s).2 = some appInit) ∧
    App.get none = (appInit, some appInit) := by
  refine ⟨fun a b => rfl, fun s => ?_, fun s => ?_, rfl⟩ <;>
    cases s <;> simp [App.get, lazyGet, appInit]

/-- C4 counterexample: the identity handler hello returns the fixed
plain-text body "Kotoba server"; the body is not the JSON payload the claim
describes — in particular it does not contain `"ok": true` (nor even the
quoted member name "ok"). -/
theorem hello_body_not_json_ok :
    hello.status = 200 ∧
    hello.body = "Kotoba server" ∧
    bodyMentionsOkTrue hello = false ∧
    strContains hello.body "\"ok\"" = false := by
  refine ⟨rfl, rfl, ?_, ?_⟩ <;> decide

/-- C4 amended: the identity endpoint (GET `/`) always returns HTTP 200 with
the fixed plain-text body "Kotoba server", with no dependency on AppState or
Schema state (the handler takes no input at all), and it never fails. -/
theorem hello_always_ok :
    hello = { status := 200, body := "Kotoba server" } ∧ hello.status = 200 := by
  exact ⟨rfl, rfl⟩

/-- C10: the stub resolvers are independent of all request-scoped and shared
state: for any two request scopes (hence any two AppState references,
variables or operation names) the engine-facing wrappers of Query::app and
Mutation::no_op return the identical fixed values. -/
theorem resolvers_scope_independent (s t : RequestScope) :
    resolveApp s = "Kotoba Server" ∧
    resolveApp s = resolveApp t ∧
    resolveNoOp s = 42 ∧
    resolveNoOp s = resolveNoOp t := by
  exact ⟨rfl, rfl, rfl, rfl⟩

/-- Helper: document execution does not depend on the request scope, because
neither stub resolver reads it. -/
theorem executeDocument_scope_eq (s t : RequestScope) (doc : String) :
    executeDocument s doc = executeDocument t doc := rfl

/-- C1: the Query root field `app` is the fixed pure string "Kotoba Server",
and for every request whose decoded GET parameters carry the document
\x7bapp\x7d as the `query` parameter, the Dispatcher returns HTTP 200 with
body \x7b"data":\x7b"app":"Kotoba Server"\x7d\x7d. -/
theorem query_app_dispatch (app : App) (kvs : List (String × String))
    (h : List.lookup "query" kvs = some "\x7bapp\x7d") :
    Query.app = "Kotoba Server" ∧
    dispatchGet executeDocument app (GetInput.params kvs) =
      { status := 200, body := "\x7b\"data\":\x7b\"app\":\"Kotoba Server\"\x7d\x7d" } := by
  refine ⟨rfl, ?_⟩
  have hd : dispatchGet executeDocument app (GetInput.params kvs) =
      match List.lookup "query" kvs with
      | none => badRequest
      | some q =>
        { status := 200, body := serializeResponse (executeDocument (scopeOfGet app kvs) q) } :=
    rfl
  rw [hd, h]
  rfl

/-- C1 witness: the theorem instantiated at the concrete request
?query=\x7bapp\x7d against the App instance. -/
theorem query_app_dispatch_witness :
    List.lookup "query" [("query", "\x7bapp\x7d")] = some "\x7bapp\x7d" ∧
    dispatchGet executeDocument {} (GetInput.params [("query", "\x7bapp\x7d")]) =
      { status := 200, body := "\x7b\"data\":\x7b\"app\":\"Kotoba Server\"\x7d\x7d" } :=
  ⟨rfl, (query_app_dispatch {} [("query", "\x7bapp\x7d")] rfl).2⟩

/-- C2: Mutation::no_op is the fixed sentinel 42, its resolver touches no
state (it is a constant function of the request scope, and the model has no
operation mutating AppState), and a POST of the document
mutation \x7b noOp \x7d returns HTTP 200 with body
\x7b"data":\x7b"noOp":42\x7d\x7d, whatever operation name and variables
accompany it. -/
theorem mutation_noop_dispatch (app : App) (opName vs : Option String) :
    Mutation.no_op = 42 ∧
    (∀ s : RequestScope, resolveNoOp s = 42) ∧
    dispatchPost executeDocument app (PostInput.json "mutation \x7b noOp \x7d" opName vs) =
      { status := 200, body := "\x7b\"data\":\x7b\"noOp\":42\x7d\x7d" } :=
  ⟨rfl, fun _ => rfl, rfl⟩

/-- C5: a request whose document parses but names an undefined field is
answered with HTTP 200 — never a non-200 status — and the GraphQL response
it carries has null `data` and a non-empty `errors` array. -/
theorem unknown_field_graphql_error (app : App) (kvs : List (String × String))
    (q : String) (op : Operation)
    (hq : List.lookup "query" kvs = some q)
    (hp : parseDocument q = some op)
    (hu : op.fields.any (fun f => !(fieldDefined op.kind f)) = true) :
    (dispatchGet executeDocument app (GetInput.params kvs)).status = 200 ∧
    (executeDocument defaultScope q).data = none ∧
    (executeDocument defaultScope q).errors ≠ [] ∧
    (dispatchGet executeDocument app (GetInput.params kvs)).body =
      serializeResponse (executeDocument defaultScope q) := by
  have hbad :
      op.fields.filter (fun f => (fieldResolver defaultScope op.kind f).isNone) ≠ [] := by
    obtain ⟨f, hf, hpf⟩ := List.any_eq_true.mp hu
    have h1 : (fieldResolver defaultScope op.kind f).isNone = true := by
      cases hr : fieldResolver defaultScope op.kind f with
      | none => rfl
      | some v => simp [fieldDefined, hr] at hpf
    exact List.ne_nil_of_mem (List.mem_filter.mpr ⟨hf, h1⟩)
  have hexec : executeDocument defaultScope q = executeOperation defaultScope op := by
    unfold executeDocument
    rw [hp]
  have hop : executeOperation defaultScope op =
      (if op.fields.filter (fun f => (fieldResolver defaultScope op.kind f).isNone) = [] then
        { data := some (op.fields.filterMap
            (fun f => (fieldResolver defaultScope op.kind f).map (fun v => (f, v)))),
          errors := [] }
       else
        { data := none,
          errors := (op.fields.filter
              (fun f => (fieldResolver defaultScope op.kind f).isNone)).map
            (fun f => "Unknown field " ++ f) }) := rfl
  rw [if_neg hbad] at hop
  have hd : dispatchGet executeDocument app (GetInput.params kvs) =
      { status := 200, body := serializeResponse (executeDocument (scopeOfGet app kvs) q) } := by
    have hm : dispatchGet executeDocument app (GetInput.params kvs) =
        match List.lookup "query" kvs with
        | none => badRequest
        | some d =>
          { status := 200, body := serializeResponse (executeDocument (scopeOfGet app kvs) d) } :=
      rfl
    rw [hm, hq]
  have hscope : executeDocument (scopeOfGet app kvs) q = executeDocument defaultScope q := rfl
  refine ⟨?_, ?_, ?_, ?_⟩
  · rw [hd]
  · rw [hexec, hop]
  · rw [hexec, hop]
    intro hc
    exact hbad (List.map_eq_nil_iff.mp hc)
  · rw [hd, hscope]

/-- C5 witness: the theorem instantiated at the concrete request
?query=\x7b doesNotExist \x7d. -/
theorem unknown_field_graphql_error_witness :
    (dispatchGet executeDocument {}
        (GetInput.params [("query", "\x7b doesNotExist \x7d")])).status = 200 ∧
    (executeDocument defaultScope "\x7b doesNotExist \x7d").data = none ∧
    (executeDocument defaultScope "\x7b doesNotExist \x7d").errors ≠ [] ∧
    (dispatchGet executeDocument {}
        (GetInput.params [("query", "\x7b doesNotExist \x7d")])).body =
      serializeResponse (executeDocument defaultScope "\x7b doesNotExist \x7d") :=
  unknown_field_graphql_error {} [("query", "\x7b doesNotExist \x7d")]
    "\x7b doesNotExist \x7d" { kind := OpKind.query, fields := ["doesNotExist"] }
    (by decide) (by decide) (by decide)

/-- C6: a GET request whose query string is undecodable or lacks the `query`
parameter is answered with HTTP 400, and the answer is the same whatever
executor and AppState are in place — GraphQL execution is never invoked on
this path. -/
theorem get_missing_query_bad_request
    (exec exec' : RequestScope → String → GqlResponse) (app app' : App)
    (inp : GetInput) (h : getQueryParam inp = none) :
    dispatchGet exec app inp = badRequest ∧
    dispatchGet exec app inp = dispatchGet exec' app' inp := by
  cases inp with
  | undecodable => exact ⟨rfl, rfl⟩
  | params kvs =>
    have hk : List.lookup "query" kvs = none := h
    have hd : ∀ (ex : RequestScope → String → GqlResponse) (a : App),
        dispatchGet ex a (GetInput.params kvs) =
          match List.lookup "query" kvs with
          | none => badRequest
          | some q =>
            { status := 200, body := serializeResponse (ex (scopeOfGet a kvs) q) } :=
      fun ex a => rfl
    refine ⟨?_, ?_⟩
    · rw [hd exec app, hk]
    · rw [hd exec app, hd exec' app', hk]

/-- C6 witness: the theorem instantiated at a concrete GET request carrying
no `query` parameter. -/
theorem get_missing_query_bad_request_witness :
    getQueryParam (GetInput.params [("operationName", "X")]) = none ∧
    dispatchGet executeDocument {} (GetInput.params [("operationName", "X")]) = badRequest :=
  ⟨rfl,
    (get_missing_query_bad_request executeDocument
      (fun _ _ => { data := none, errors := [] }) {} {}
      (GetInput.params [("operationName", "X")]) rfl).1⟩

/-- C7: a POST request whose body is malformed JSON or exceeds the size
limit is answered with HTTP 400, and the answer is the same whatever
executor and AppState are in place — GraphQL execution is never invoked on
this path. -/
theorem post_malformed_bad_request
    (exec exec' : RequestScope → String → GqlResponse) (app app' : App)
    (inp : PostInput) (h : postTransportError inp = true) :
    dispatchPost exec app inp = badRequest ∧
    dispatchPost exec app inp = dispatchPost exec' app' inp := by
  cases inp with
  | json q opName vs => simp [postTransportError] at h
  | malformed => exact ⟨rfl, rfl⟩
  | oversized => exact ⟨rfl, rfl⟩

/-- C7 witness: the theorem instantiated at a concrete malformed-JSON POST
body. -/
theorem post_malformed_bad_request_witness :
    postTransportError PostInput.malformed = true ∧
    dispatchPost executeDocument {} PostInput.malformed = badRequest :=
  ⟨rfl,
    (post_malformed_bad_request executeDocument
      (fun _ _ => { data := none, errors := [] }) {} {}
      PostInput.malformed rfl).1⟩

/-- C8 counterexample: a launch with two worker threads runs the application
factory twice, so Schema.new is invoked twice — not exactly once as the
claim states. -/
theorem schema_new_twice_with_two_workers :
    schemaNewCalls {} 2 = 2 ∧ schemaNewCalls {} 2 ≠ 1 := by decide

/-- C8 amended: Schema.new is invoked exactly once per worker at startup —
launch with n workers performs n invocations, every worker receives the
identical Schema built from the Query root, the Mutation root and the empty
Subscription capability together with the same captured App reference, and
no later path constructs another Schema. -/
theorem schema_constructed_once_per_worker (app : App) (n : Nat) :
    schemaNewCalls app n = n ∧
    launchWorkers app n = List.replicate n (appFactory app) ∧
    appFactory app = { schema := Schema.new {} {} {}, appData := app } := by
  refine ⟨?_, ?_, rfl⟩
  · simp [schemaNewCalls, launchWorkers]
  · simp [launchWorkers, List.map_const', List.length_range]

end Kotoba
